import Mathlib

/-!
Verification of the typst-jp documentation site's navigation core:
the PathResolver string functions (`website/src/utils/path.ts`), the
page-tree sequencing used for previous/next links, the breadcrumb and
base-template rendering components, the translation-status banner
classifier and the menu-translation lookup.

Strings are modelled as `List Char` (the underlying data of `String`);
`"…".data` converts a literal.  Each definition carries a note saying
which source function it embeds.
-/

namespace PathResolver

/-- `basePath.replace(/\/+$/, "")`: remove every trailing slash. -/
def stripTrailingSlashes (l : List Char) : List Char :=
  (l.reverse.dropWhile (fun c => c == '/')).reverse

/-- `path.replace(/^\/+/, "")`: remove every leading slash. -/
def stripLeadingSlashes (l : List Char) : List Char :=
  l.dropWhile (fun c => c == '/')

/-- `joinPath` from `website/src/utils/path.ts`: joins two paths with a
single `/` between them, with the special case for a bare `/` base. -/
def joinPath (basePath path : List Char) : List Char :=
  let baseClean := if basePath ≠ ['/'] then stripTrailingSlashes basePath else basePath
  let pathClean := stripLeadingSlashes path
  if baseClean = ['/'] then '/' :: pathClean
  else baseClean ++ '/' :: pathClean

/-- `applyBasePath` from `website/src/utils/path.ts`: a relative path
(one that does not start with `/`) is returned unchanged, an absolute
path is joined onto the base. -/
def applyBasePath (basePath path : List Char) : List Char :=
  let isRelative := !(['/'].isPrefixOf path)
  if isRelative then path else joinPath basePath path

/-- Modelled from the spec: `removeBasePath(base, route)` strips a leading
`base` (with or without its trailing slash) from `route`, returning the
remainder including its leading `/`; if `route` does not start with `base`
the route is returned unchanged, and a base of `/` or the empty string is
a no-op.  The implementation file of `removeBasePath` is not among the
repository sources here (only its unit tests in
`website/src/utils/path.test.ts` are), so the definition follows the
spec's words; the unit tests are checked against it below. -/
def removeBasePath (basePath route : List Char) : List Char :=
  let baseClean := stripTrailingSlashes basePath
  if baseClean = [] then route
  else if baseClean.isPrefixOf route then route.drop baseClean.length
  else route

/-- The `removeBasePath` test vectors from `website/src/utils/path.test.ts`
hold of the spec-modelled definition. -/
theorem removeBasePath_matches_unit_tests :
    removeBasePath "/docs/".data "/docs/foo/bar".data = "/foo/bar".data ∧
    removeBasePath "/base/".data "/base/foo".data = "/foo".data ∧
    removeBasePath "/docs".data "/docs/foo/bar".data = "/foo/bar".data ∧
    removeBasePath "/base".data "/base/foo".data = "/foo".data ∧
    removeBasePath "/docs".data "/other/foo".data = "/other/foo".data ∧
    removeBasePath "/base".data "/docs/foo".data = "/docs/foo".data ∧
    removeBasePath "/".data "/foo/bar".data = "/foo/bar".data ∧
    removeBasePath "".data "/foo/bar".data = "/foo/bar".data := by
  decide

theorem dropWhile_head_false {p : Char → Bool} {l : List Char} {c : Char}
    {cs : List Char} (h : l.dropWhile p = c :: cs) : p c = false := by
  induction l with
  | nil => simp at h
  | cons a as ih =>
    by_cases hp : p a = true
    · exact ih (by simpa [List.dropWhile, hp] using h)
    · simp only [List.dropWhile, hp] at h
      injection h with h1 h2
      subst h1
      simpa using hp

theorem stripTrailingSlashes_ne_slash (l : List Char) :
    stripTrailingSlashes l ≠ ['/'] := by
  intro h
  unfold stripTrailingSlashes at h
  have h' : l.reverse.dropWhile (fun c => c == '/') = ['/'] := by
    have := congrArg List.reverse h
    simpa using this
  have := dropWhile_head_false h'
  simp at this

/-- The branch structure of `joinPath` collapses to one equation: the base
without trailing slashes, one separating slash, the path without leading
slashes. -/
theorem joinPath_eq (basePath path : List Char) :
    joinPath basePath path =
      stripTrailingSlashes basePath ++ '/' :: stripLeadingSlashes path := by
  unfold joinPath
  by_cases hb : basePath = ['/']
  · subst hb
    simp [stripTrailingSlashes, List.dropWhile]
  · simp only [ne_eq, hb, not_false_eq_true, if_true]
    rw [if_neg (stripTrailingSlashes_ne_slash basePath)]

theorem stripLeadingSlashes_cons_slash (l : List Char) :
    stripLeadingSlashes ('/' :: l) = stripLeadingSlashes l := by
  simp [stripLeadingSlashes, List.dropWhile]

theorem stripLeadingSlashes_idem (l : List Char) :
    stripLeadingSlashes (stripLeadingSlashes l) = stripLeadingSlashes l := by
  simp [stripLeadingSlashes, List.dropWhile_idempotent]

theorem isPrefixOf_append_self (l m : List Char) : (l.isPrefixOf (l ++ m)) = true := by
  induction l with
  | nil => simp [List.isPrefixOf]
  | cons a as ih => simp [List.isPrefixOf, ih]

theorem slash_isPrefixOf_of_cons {bs p : List Char}
    (h : (('/' :: bs).isPrefixOf p) = true) : (['/'].isPrefixOf p) = true := by
  cases p with
  | nil => simp [List.isPrefixOf] at h
  | cons c cs =>
    simp only [List.isPrefixOf, Bool.and_eq_true] at h ⊢
    exact ⟨h.1, trivial⟩

theorem drop_length_append (l m : List Char) : (l ++ m).drop l.length = m := by
  induction l with
  | nil => simp
  | cons a as ih => simp [ih]

/-- C6: `joinPath` concatenates base and path with exactly one separating
slash, whatever leading or trailing slashes the inputs carry.  The bare-`/`
base, empty-path and empty-base cases of the spec follow, as do its three
concrete scenarios. -/
theorem joinPath_single_separator (base path : List Char) :
    joinPath base path =
        stripTrailingSlashes base ++ '/' :: stripLeadingSlashes path ∧
    joinPath ['/'] path = '/' :: stripLeadingSlashes path ∧
    joinPath base [] = stripTrailingSlashes base ++ ['/'] ∧
    joinPath [] path = '/' :: stripLeadingSlashes path ∧
    joinPath "/base/".data "/foo".data = "/base/foo".data ∧
    joinPath "/".data "/foo".data = "/foo".data ∧
    joinPath "/base".data "".data = "/base/".data := by
  refine ⟨joinPath_eq base path, ?_, ?_, ?_, by decide, by decide, by decide⟩
  · rw [joinPath_eq]
    simp [stripTrailingSlashes, List.dropWhile]
  · rw [joinPath_eq]
    simp [stripLeadingSlashes, List.dropWhile]
  · rw [joinPath_eq]
    simp [stripTrailingSlashes, List.dropWhile]

/-- C7: `applyBasePath` leaves a relative path (no leading `/`) unchanged
and joins an absolute path onto the base; the spec's two scenarios follow. -/
theorem applyBasePath_relative_unchanged (base path : List Char) :
    applyBasePath base path =
        (if (['/'].isPrefixOf path) = true then joinPath base path else path) ∧
    applyBasePath "/docs".data "./image.png".data = "./image.png".data ∧
    applyBasePath "/docs".data "/reference".data = "/docs/reference".data := by
  refine ⟨?_, by decide, by decide⟩
  unfold applyBasePath
  by_cases h : (['/'].isPrefixOf path) = true <;> simp [h]

theorem joinPath_root_base {base : List Char} (p : List Char)
    (h : base = [] ∨ base = ['/']) :
    joinPath base p = '/' :: stripLeadingSlashes p := by
  rcases h with h | h <;> subst h <;>
    simp [joinPath_eq, stripTrailingSlashes, List.dropWhile]

theorem applyBasePath_absolute {base p : List Char}
    (h : (['/'].isPrefixOf p) = true) :
    applyBasePath base p = joinPath base p := by
  simp [applyBasePath, h]

theorem applyBasePath_not_absolute {base p : List Char}
    (h : (['/'].isPrefixOf p) = false) :
    applyBasePath base p = p := by
  simp [applyBasePath, h]

/-- C8: for every path `p` and each base configuration the spec names,
stripping the base after applying it and applying it again reproduces the
applied path: `applyBasePath base (removeBasePath base (applyBasePath base
p)) = applyBasePath base p`. -/
theorem applyBasePath_removeBasePath_roundtrip (p base : List Char)
    (hbase : base = [] ∨ base = ['/'] ∨ base = "/docs".data ∨ base = "/docs/".data) :
    applyBasePath base (removeBasePath base (applyBasePath base p)) =
      applyBasePath base p := by
  by_cases habs : (['/'].isPrefixOf p) = true
  · -- absolute path: it gets joined onto the base
    rcases hbase with h | h | h | h
    · subst h
      rw [applyBasePath_absolute habs, joinPath_root_base p (Or.inl rfl)]
      rw [show removeBasePath [] ('/' :: stripLeadingSlashes p)
            = '/' :: stripLeadingSlashes p from rfl]
      rw [applyBasePath_absolute (by simp [List.isPrefixOf]),
        joinPath_root_base _ (Or.inl rfl), stripLeadingSlashes_cons_slash,
        stripLeadingSlashes_idem]
    · subst h
      rw [applyBasePath_absolute habs, joinPath_root_base p (Or.inr rfl)]
      rw [show removeBasePath ['/'] ('/' :: stripLeadingSlashes p)
            = '/' :: stripLeadingSlashes p by
          simp [removeBasePath, stripTrailingSlashes, List.dropWhile]]
      rw [applyBasePath_absolute (by simp [List.isPrefixOf]),
        joinPath_root_base _ (Or.inr rfl), stripLeadingSlashes_cons_slash,
        stripLeadingSlashes_idem]
    · subst h
      rw [applyBasePath_absolute habs, joinPath_eq,
        show stripTrailingSlashes "/docs".data = "/docs".data from by decide]
      rw [show removeBasePath "/docs".data
              ("/docs".data ++ '/' :: stripLeadingSlashes p)
            = '/' :: stripLeadingSlashes p by
          simp only [removeBasePath,
            show stripTrailingSlashes "/docs".data = "/docs".data from by decide]
          rw [if_neg (by decide), if_pos (isPrefixOf_append_self ..),
            drop_length_append]]
      rw [applyBasePath_absolute (by simp [List.isPrefixOf]), joinPath_eq,
        show stripTrailingSlashes "/docs".data = "/docs".data from by decide,
        stripLeadingSlashes_cons_slash, stripLeadingSlashes_idem]
    · subst h
      rw [applyBasePath_absolute habs, joinPath_eq,
        show stripTrailingSlashes "/docs/".data = "/docs".data from by decide]
      rw [show removeBasePath "/docs/".data
              ("/docs".data ++ '/' :: stripLeadingSlashes p)
            = '/' :: stripLeadingSlashes p by
          simp only [removeBasePath,
            show stripTrailingSlashes "/docs/".data = "/docs".data from by decide]
          rw [if_neg (by decide), if_pos (isPrefixOf_append_self ..),
            drop_length_append]]
      rw [applyBasePath_absolute (by simp [List.isPrefixOf]), joinPath_eq,
        show stripTrailingSlashes "/docs/".data = "/docs".data from by decide,
        stripLeadingSlashes_cons_slash, stripLeadingSlashes_idem]
  · -- relative path: untouched at every step
    have habs' : (['/'].isPrefixOf p) = false := Bool.eq_false_iff.mpr habs
    rw [applyBasePath_not_absolute habs']
    have hremove : removeBasePath base p = p := by
      rcases hbase with h | h | h | h <;> subst h
      · rfl
      · simp [removeBasePath, stripTrailingSlashes, List.dropWhile]
      · simp only [removeBasePath,
          show stripTrailingSlashes "/docs".data = "/docs".data from by decide]
        rw [if_neg (by decide), if_neg ?_]
        intro hpre
        rw [slash_isPrefixOf_of_cons hpre] at habs'
        exact Bool.true_eq_false.mp habs'
      · simp only [removeBasePath,
          show stripTrailingSlashes "/docs/".data = "/docs".data from by decide]
        rw [if_neg (by decide), if_neg ?_]
        intro hpre
        rw [slash_isPrefixOf_of_cons hpre] at habs'
        exact Bool.true_eq_false.mp habs'
    rw [hremove, applyBasePath_not_absolute habs']

/-- Witness for C8 at the concrete base `/docs` and path `/reference`. -/
theorem applyBasePath_removeBasePath_roundtrip_witness :
    applyBasePath "/docs".data
        (removeBasePath "/docs".data (applyBasePath "/docs".data "/reference".data)) =
      applyBasePath "/docs".data "/reference".data :=
  applyBasePath_removeBasePath_roundtrip "/reference".data "/docs".data
    (Or.inr (Or.inr (Or.inl rfl)))

end PathResolver

namespace Website

/-- The content variants of a page body (`HtmlBody` / `TypeBody` /
`FuncBody` in the templates' types; the type file itself is not among the
sources, so the variants are modelled from the spec's tagged union). -/
inductive Body where
  | html (content : String)
  | typeDoc (content : String)
  | funcDoc (content : String)
deriving DecidableEq

/-- A page as the templates consume it: `route`, `title`, `description`
and the tagged body (spec §3; the `types/model` file is not among the
sources, so the fields are those the templates read). -/
structure Page where
  route : String
  title : String
  description : String
  body : Body
deriving DecidableEq

/-- The root listing route that `BaseTemplate` compares against
(`route === "/docs/"`). -/
def rootRoute : String := "/docs/"

/-- One rendered item of `BaseTemplate`'s bottom navigation region:
a category card (root page) or a previous/next page link, each carrying
the emitted `href`. -/
inductive NavItem where
  | categoryCard (href : String) (label : String)
  | prevLink (href : String) (title : String)
  | nextLink (href : String) (title : String)
deriving DecidableEq

/-- The JSX `previousPage && nextPage && (<div>…</div>)` block of
`BaseTemplate.tsx`: both links render when both neighbours are present,
otherwise the expression renders nothing. -/
def prevNextSection (previousPage nextPage : Option Page) : List NavItem :=
  match previousPage, nextPage with
  | some p, some n => [NavItem.prevLink p.route p.title, NavItem.nextLink n.route n.title]
  | _, _ => []

/-- The bottom navigation region of `BaseTemplate.tsx` (lines 132–201):
`route === "/docs/"` selects the two hard-coded category cards, any other
route the previous/next block. -/
def renderNav (page : Page) (previousPage nextPage : Option Page) : List NavItem :=
  if page.route = rootRoute then
    [NavItem.categoryCard "/docs/tutorial" "チュートリアル",
     NavItem.categoryCard "/docs/reference" "リファレンス"]
  else prevNextSection previousPage nextPage

/-- One rendered breadcrumb entry of `Breadcrumbs.tsx`: the home icon link
(hard-coded `href="/docs/"`), an active link carrying `href={item.route}`,
or the final entry, an anchor with no `href` showing the current page's
title.  The decorative chevron between entries carries no page data and is
omitted. -/
inductive Crumb where
  | home (href : String)
  | link (href : String) (title : String)
  | current (title : String)
deriving DecidableEq

/-- `Breadcrumbs.tsx` (lines 10–39): the home link followed by one entry
per element of the ancestor chain; the element at index
`path.length - 1` renders as the non-clickable current entry, every other
one as an active link to its route. -/
def breadcrumbs (path : List Page) : List Crumb :=
  Crumb.home "/docs/" ::
    path.enum.map (fun x =>
      if x.1 = path.length - 1 then Crumb.current x.2.title
      else Crumb.link x.2.route x.2.title)

/-- The `href` attributes a breadcrumb list emits (the final entry has
none). -/
def crumbHrefs : List Crumb → List String
  | [] => []
  | Crumb.home h :: rest => h :: crumbHrefs rest
  | Crumb.link h _ :: rest => h :: crumbHrefs rest
  | Crumb.current _ :: rest => crumbHrefs rest

/-- The `href` attributes the bottom navigation region emits. -/
def navHrefs : List NavItem → List String
  | [] => []
  | NavItem.categoryCard h _ :: rest => h :: navHrefs rest
  | NavItem.prevLink h _ :: rest => h :: navHrefs rest
  | NavItem.nextLink h _ :: rest => h :: navHrefs rest

/-- Category cards among the rendered navigation items. -/
def countCategoryCards (items : List NavItem) : Nat :=
  (items.filter fun i =>
    match i with
    | NavItem.categoryCard _ _ => true
    | _ => false).length

def pgRoot : Page := ⟨"/docs/", "ドキュメント", "", Body.html ""⟩

def pgRootTyped : Page := ⟨"/docs/", "ドキュメント", "", Body.typeDoc ""⟩

def pgTutorial : Page := ⟨"/docs/tutorial/", "チュートリアル", "", Body.html ""⟩

def pgRef : Page := ⟨"/docs/reference/", "リファレンス", "", Body.html ""⟩

theorem enumFrom_append_concat (l : List Page) (a : Page) (k : Nat) :
    List.enumFrom k (l ++ [a]) = List.enumFrom k l ++ [(k + l.length, a)] := by
  induction l generalizing k with
  | nil => simp [List.enumFrom]
  | cons b bs ih =>
    simp only [List.cons_append, List.enumFrom, List.append_eq]
    rw [ih (k + 1)]
    simp only [List.length_cons]
    have harith : k + 1 + bs.length = k + (bs.length + 1) := by omega
    rw [harith]

theorem enumFrom_map_below (l : List Page) (k n : Nat) (h : k + l.length ≤ n) :
    (List.enumFrom k l).map (fun x =>
        if x.1 = n then Crumb.current x.2.title
        else Crumb.link x.2.route x.2.title) =
      l.map (fun it => Crumb.link it.route it.title) := by
  induction l generalizing k with
  | nil => simp [List.enumFrom]
  | cons b bs ih =>
    have hk : k ≠ n := by
      simp only [List.length_cons] at h
      omega
    simp only [List.enumFrom, List.map_cons, hk, if_false]
    rw [ih (k + 1) (by simp only [List.length_cons] at h; omega)]

/-- The breadcrumb list for a chain ending in `a`: the home link, an
active link per proper ancestor, the current page as final entry. -/
theorem breadcrumbs_concat (l : List Page) (a : Page) :
    breadcrumbs (l ++ [a]) =
      Crumb.home "/docs/" ::
        (l.map (fun it => Crumb.link it.route it.title) ++
          [Crumb.current a.title]) := by
  unfold breadcrumbs
  rw [show (l ++ [a]).enum = List.enumFrom 0 (l ++ [a]) from rfl,
    enumFrom_append_concat]
  rw [List.map_append, enumFrom_map_below l 0 ((l ++ [a]).length - 1) (by simp)]
  simp

/-- C4: for a non-empty ancestor chain every element but the last renders
as an active link with `href` equal to its route, and the last renders as
the non-clickable current entry (an anchor with no `href`) showing its
title. -/
theorem breadcrumbs_links_then_current (path : List Page) (h : path ≠ []) :
    breadcrumbs path =
      Crumb.home "/docs/" ::
        (path.dropLast.map (fun it => Crumb.link it.route it.title) ++
          [Crumb.current (path.getLast h).title]) := by
  obtain ⟨l, a, rfl⟩ := path.eq_nil_or_concat'.resolve_left h
  rw [breadcrumbs_concat, List.dropLast_concat, List.getLast_append_singleton]

/-- Witness for C4 on the two-element chain tutorial → reference. -/
theorem breadcrumbs_links_then_current_witness :
    breadcrumbs [pgTutorial, pgRef] =
      Crumb.home "/docs/" ::
        ([pgTutorial, pgRef].dropLast.map (fun it => Crumb.link it.route it.title) ++
          [Crumb.current ([pgTutorial, pgRef].getLast (by decide)).title]) :=
  breadcrumbs_links_then_current [pgTutorial, pgRef] (by decide)

/-- C1 counterexample: for the non-root tutorial page a previous page
exists (`pgRoot`) but no next page, and `BaseTemplate` renders no
previous-page link at all — the `previousPage && nextPage` guard drops
both links when either neighbour is missing; symmetrically for a lone
next page.  This falsifies "the presence of each of the two links depends
only on that neighbor existing". -/
theorem prevNext_link_counterexample :
    pgTutorial.route ≠ rootRoute ∧
    renderNav pgTutorial (some pgRoot) none = [] ∧
    renderNav pgTutorial none (some pgRef) = [] := by
  refine ⟨by decide, rfl, rfl⟩

/-- C1 amended: for a non-root page the previous/next links are rendered
exactly when both neighbours exist; the previous link then has
`href = previousPage.route` with its title, the next link
`href = nextPage.route`, and if either neighbour is missing neither link
renders. -/
theorem prevNext_links_require_both_neighbors (pg p n : Page)
    (h : pg.route ≠ rootRoute) :
    renderNav pg (some p) (some n) =
        [NavItem.prevLink p.route p.title, NavItem.nextLink n.route n.title] ∧
    renderNav pg (some p) none = [] ∧
    renderNav pg none (some n) = [] ∧
    renderNav pg none none = [] := by
  refine ⟨?_, ?_, ?_, ?_⟩ <;> simp [renderNav, h, prevNextSection]

/-- Witness for the amended C1 at the tutorial page with both neighbours. -/
theorem prevNext_links_require_both_neighbors_witness :
    renderNav pgTutorial (some pgRoot) (some pgRef) =
        [NavItem.prevLink pgRoot.route pgRoot.title,
         NavItem.nextLink pgRef.route pgRef.title] ∧
    renderNav pgTutorial (some pgRoot) none = [] ∧
    renderNav pgTutorial none (some pgRef) = [] ∧
    renderNav pgTutorial none none = [] :=
  prevNext_links_require_both_neighbors pgTutorial pgRoot pgRef (by decide)

theorem crumbHrefs_links_current (l : List Page) (t : String) :
    crumbHrefs (l.map (fun it => Crumb.link it.route it.title) ++
        [Crumb.current t]) =
      l.map Page.route := by
  induction l with
  | nil => simp [crumbHrefs]
  | cons b bs ih => simp [crumbHrefs, ih]

/-- C2 counterexample: with the non-root base path `/base` configured, the
breadcrumb home link still emits the hard-coded absolute `href="/docs/"`:
the emitted path is absolute, does not carry the base path, and differs
from what `applyBasePath` would produce — an un-rewritten absolute path in
the output.  The root page's category cards likewise emit the hard-coded
`/docs/tutorial` and `/docs/reference`. -/
theorem unrewritten_absolute_href_counterexample :
    crumbHrefs (breadcrumbs [pgTutorial]) = ["/docs/"] ∧
    (['/'].isPrefixOf "/docs/".data) = true ∧
    (("/base".data).isPrefixOf "/docs/".data) = false ∧
    PathResolver.applyBasePath "/base".data "/docs/".data = "/base/docs/".data ∧
    "/base/docs/".data ≠ "/docs/".data ∧
    navHrefs (renderNav pgRoot none none) = ["/docs/tutorial", "/docs/reference"] ∧
    (("/base".data).isPrefixOf "/docs/tutorial".data) = false := by
  exact ⟨rfl, by decide, by decide, by decide, by decide, rfl, by decide⟩

/-- C2 amended: the navigation chrome never applies a configured base
path — its output mentions no base path at all: the breadcrumb hrefs are
the hard-coded `/docs/` home link followed by the raw routes of the proper
ancestors, the root page's category cards emit the hard-coded
`/docs/tutorial` and `/docs/reference`, and the previous/next links emit
the raw neighbour routes.  Under a non-root base path these are exactly
the un-rewritten absolute paths the original claim rules out. -/
theorem navigation_hrefs_are_raw_routes (path : List Page) (pg0 pg p n : Page)
    (h0 : pg0.route = rootRoute) (h : pg.route ≠ rootRoute) :
    crumbHrefs (breadcrumbs path) = "/docs/" :: path.dropLast.map Page.route ∧
    navHrefs (renderNav pg0 (some p) (some n)) =
        ["/docs/tutorial", "/docs/reference"] ∧
    navHrefs (renderNav pg (some p) (some n)) = [p.route, n.route] := by
  refine ⟨?_, ?_, ?_⟩
  · rcases path.eq_nil_or_concat' with hnil | ⟨l, a, rfl⟩
    · subst hnil
      rfl
    · rw [breadcrumbs_concat, List.dropLast_concat]
      simp [crumbHrefs, crumbHrefs_links_current]
  · simp [renderNav, h0, navHrefs]
  · simp [renderNav, h, prevNextSection, navHrefs]

/-- Witness for the amended C2 at concrete pages. -/
theorem navigation_hrefs_are_raw_routes_witness :
    crumbHrefs (breadcrumbs [pgRoot, pgTutorial]) =
        "/docs/" :: [pgRoot, pgTutorial].dropLast.map Page.route ∧
    navHrefs (renderNav pgRoot (some pgTutorial) (some pgRef)) =
        ["/docs/tutorial", "/docs/reference"] ∧
    navHrefs (renderNav pgTutorial (some pgRoot) (some pgRef)) =
        [pgRoot.route, pgRef.route] :=
  navigation_hrefs_are_raw_routes [pgRoot, pgTutorial] pgRoot pgTutorial
    pgRoot pgRef rfl (by decide)

/-- C5: the category-card branch renders exactly when the route equals the
root route `/docs/` and the previous/next branch for every other route;
the choice is keyed on route equality alone — two pages with the same
route (whatever their body variants) render the same navigation region. -/
theorem renderNav_keyed_on_root_route (pg pg' : Page) (prev next : Option Page)
    (h : pg'.route = pg.route) :
    renderNav pg' prev next = renderNav pg prev next ∧
    renderNav pg prev next =
        (if pg.route = rootRoute
          then [NavItem.categoryCard "/docs/tutorial" "チュートリアル",
                NavItem.categoryCard "/docs/reference" "リファレンス"]
          else prevNextSection prev next) ∧
    countCategoryCards (renderNav pg prev next) =
        (if pg.route = rootRoute then 2 else 0) := by
  refine ⟨by simp [renderNav, h], rfl, ?_⟩
  by_cases hr : pg.route = rootRoute
  · simp [renderNav, hr, countCategoryCards]
  · cases prev <;> cases next <;>
      simp [renderNav, hr, prevNextSection, countCategoryCards]

/-- Witness for C5: the root page rendered as an html page and as a
type-documentation page produce the same category cards. -/
theorem renderNav_keyed_on_root_route_witness :
    renderNav pgRootTyped (some pgTutorial) none =
        renderNav pgRoot (some pgTutorial) none ∧
    renderNav pgRoot (some pgTutorial) none =
        (if pgRoot.route = rootRoute
          then [NavItem.categoryCard "/docs/tutorial" "チュートリアル",
                NavItem.categoryCard "/docs/reference" "リファレンス"]
          else prevNextSection (some pgTutorial) none) ∧
    countCategoryCards (renderNav pgRoot (some pgTutorial) none) =
        (if pgRoot.route = rootRoute then 2 else 0) :=
  renderNav_keyed_on_root_route pgRoot pgRootTyped (some pgTutorial) none rfl

end Website

namespace Website

/-- `TranslationStatus` from `utils/translationStatus`: the four statuses
the classifier can produce. -/
inductive TranslationStatus where
  | translated
  | partially_translated
  | untranslated
  | community
deriving DecidableEq

/-- The banner configuration `getStatusConfig` returns
(`TranslationStatusAlert.tsx`). -/
structure StatusConfig where
  bgColor : String
  borderColor : String
  textColor : String
  iconColor : String
  label : String
  message : String
deriving DecidableEq

/-- `getStatusConfig` from `TranslationStatusAlert.tsx` (lines 16–56): the
exhaustive switch over the four statuses.  The labels and messages are the
`menuTranslations` values the component references, inlined from
`translations.tsx`. -/
def getStatusConfig : TranslationStatus → StatusConfig
  | TranslationStatus.translated =>
    ⟨"bg-green-50", "border-green-200", "text-green-800", "text-green-600",
      "翻訳済み", "このページは日本語に翻訳済みです。"⟩
  | TranslationStatus.partially_translated =>
    ⟨"bg-yellow-50", "border-yellow-200", "text-yellow-800", "text-yellow-600",
      "部分的に翻訳済み",
      "このページは部分的に翻訳されています。一部原文の内容が含まれています。"⟩
  | TranslationStatus.untranslated =>
    ⟨"bg-red-50", "border-red-200", "text-red-800", "text-red-600",
      "未翻訳", "このページはまだ翻訳されていません。原文の内容が表示されています。"⟩
  | TranslationStatus.community =>
    ⟨"bg-cyan-50", "border-cyan-200", "text-cyan-800", "text-cyan-600",
      "日本語版オリジナル",
      "このページの内容は公式ドキュメントには含まれておらず、日本語コミュニティが独自に追加したものです。"⟩

/-- C3: `getStatusConfig` is total on the four statuses — every input is
one of the four and is sent to that status's configuration, so no
"unknown" or default branch is reachable — and the configuration of
`community` differs from the one of `untranslated` in both label and
message. -/
theorem getStatusConfig_total_and_distinct (s : TranslationStatus) :
    (s = TranslationStatus.translated ∨ s = TranslationStatus.partially_translated ∨
      s = TranslationStatus.untranslated ∨ s = TranslationStatus.community) ∧
    (getStatusConfig s = getStatusConfig TranslationStatus.translated ∨
      getStatusConfig s = getStatusConfig TranslationStatus.partially_translated ∨
      getStatusConfig s = getStatusConfig TranslationStatus.untranslated ∨
      getStatusConfig s = getStatusConfig TranslationStatus.community) ∧
    (getStatusConfig TranslationStatus.community).label ≠
        (getStatusConfig TranslationStatus.untranslated).label ∧
    (getStatusConfig TranslationStatus.community).message ≠
        (getStatusConfig TranslationStatus.untranslated).message := by
  refine ⟨?_, ?_, by decide, by decide⟩ <;>
    cases s <;> simp [getStatusConfig]

end Website

namespace Translations

/-- A value stored in the `menuTranslations` object: a plain string or a
function returning a JSX element (modelled by its key, the element itself
being opaque markup). -/
inductive JsValue where
  | str (s : String)
  | fn (tag : String)
deriving DecidableEq

/-- The own properties of `menuTranslations` from `translations.tsx`, in
source order.  `settableDesc` and `banner` are the two function-valued
entries. -/
def menuTranslations : List (String × JsValue) := [
  ("lang", JsValue.str "ja"),
  ("langVersion", JsValue.str "日本語版"),
  ("definition", JsValue.str "定義"),
  ("document", JsValue.str "ドキュメント"),
  ("constructor", JsValue.str "コンストラクタ"),
  ("definitionOf", JsValue.str "の定義"),
  ("search", JsValue.str "検索"),
  ("defaultValue", JsValue.str "デフォルト値"),
  ("stringValues", JsValue.str "使用可能な文字列値"),
  ("showExample", JsValue.str "例を表示"),
  ("tableOfContents", JsValue.str "目次"),
  ("nextPage", JsValue.str "次のページ"),
  ("previousPage", JsValue.str "前のページ"),
  ("reference", JsValue.str "Typstのあらゆる構文、概念、型、関数についての詳細なリファレンスです。"),
  ("learnTypst", JsValue.str "一歩一歩、Typstの使い方を学びましょう。"),
  ("tutorial", JsValue.str "チュートリアル"),
  ("originalArticle", JsValue.str "原文（英語）を開く"),
  ("documentationTitle", JsValue.str "Typstドキュメント日本語版"),
  ("referenceTo", JsValue.str "リファレンス"),
  ("typstOfficialDoc", JsValue.str "Typst公式ドキュメント"),
  ("typstOfficialWebsite", JsValue.str "Typst公式サイト"),
  ("translationRate", JsValue.str "翻訳率"),
  ("untranslated", JsValue.str "未翻訳"),
  ("untranslatedMessage", JsValue.str "このページはまだ翻訳されていません。原文の内容が表示されています。"),
  ("originalVersion", JsValue.str "日本語版オリジナル"),
  ("contentAddedByCommunity", JsValue.str "このページの内容は公式ドキュメントには含まれておらず、日本語コミュニティが独自に追加したものです。"),
  ("partiallyTranslated", JsValue.str "部分的に翻訳済み"),
  ("partiallyTranslatedMessage", JsValue.str "このページは部分的に翻訳されています。一部原文の内容が含まれています。"),
  ("translated", JsValue.str "翻訳済み"),
  ("translatedMessage", JsValue.str "このページは日本語に翻訳済みです。"),
  ("elementFunction", JsValue.str "要素関数"),
  ("elementFunctionDesc", JsValue.str "要素関数は<code>set</code>ルールや<code>show</code>ルールでカスタマイズできます。"),
  ("contextFunction", JsValue.str "コンテキスト関数"),
  ("contextFunctionDesc", JsValue.str "コンテキスト関数は、コンテキストが既知の場合にのみ使用できます。"),
  ("definitionTooltip", JsValue.str "定義"),
  ("definitionTooltipDesc", JsValue.str "これらの関数や型には、関連する定義を持たせることができます。定義にアクセスするには、対象の関数や型の名前を指定した後に、ピリオド区切りで定義名を記述します。"),
  ("argument", JsValue.str "引数"),
  ("argumentDesc", JsValue.str "引数は関数への入力値です。関数名の後に括弧で囲んで指定します。"),
  ("variadic", JsValue.str "可変長引数"),
  ("variadicDesc", JsValue.str "可変長引数は複数回指定することができます。"),
  ("settable", JsValue.str "設定可能引数"),
  ("settableDesc", JsValue.fn "settableDesc"),
  ("positional", JsValue.str "位置引数"),
  ("positionalDesc", JsValue.str "位置引数は順序通りに指定することで、引数名を省略して設定できます。"),
  ("required", JsValue.str "必須引数"),
  ("requiredDesc", JsValue.str "必須引数は、関数を呼び出す際に必ず指定しなければなりません。"),
  ("showInformation", JsValue.str "の詳細情報を表示"),
  ("close", JsValue.str "閉じる"),
  ("information", JsValue.str "情報"),
  ("openSearch", JsValue.str "検索を開く"),
  ("closeSearch", JsValue.str "検索を閉じる"),
  ("openMenu", JsValue.str "メニューを開く"),
  ("closeMenu", JsValue.str "メニューを閉じる"),
  ("banner", JsValue.fn "banner")]

/-- `Object.hasOwn(menuTranslations, key)`: lookup among the object's own
properties only. -/
def ownLookup (key : String) : Option JsValue := menuTranslations.lookup key

/-- The function-valued properties every plain object inherits from
`Object.prototype`; a bare property read `menuTranslations[key]` also
finds these. -/
def objectProtoKeys : List String :=
  ["constructor", "hasOwnProperty", "isPrototypeOf", "propertyIsEnumerable",
    "toLocaleString", "toString", "valueOf"]

/-- The JS property read `menuTranslations[key]`: an own property if
present, else an inherited `Object.prototype` function, else undefined
(`none`). -/
def getProp (key : String) : Option JsValue :=
  match ownLookup key with
  | some v => some v
  | none =>
    if key ∈ objectProtoKeys then some (JsValue.fn ("Object.prototype." ++ key))
    else none

/-- What `t` produces: a translation string, or the element a
function-valued entry evaluates to (modelled by the entry's key). -/
inductive TResult where
  | str (s : String)
  | element (tag : String)
deriving DecidableEq

def hasOwn (key : String) : Bool := (ownLookup key).isSome

/-- `t` from `translations.tsx` (lines 102–110): return the property when
`typeof` it is a string; otherwise, when the key is an own property, call
it and return the element; otherwise throw
`Not translation found for` followed by the key (modelled as
`Except.error`). -/
def t (key : String) : Except String TResult :=
  match getProp key with
  | some (JsValue.str s) => Except.ok (TResult.str s)
  | v =>
    if hasOwn key then
      match v with
      | some (JsValue.fn tag) => Except.ok (TResult.element tag)
      | _ => Except.error "TypeError: not a function"
    else Except.error ("Not translation found for " ++ key)

/-- C10: `t key` returns the own string entry when there is one, evaluates
and returns the element when the own entry is a function, and throws
`Not translation found for …` exactly when `key` is not an own property —
in particular the inherited prototype key `toString` is found by the
property read yet still throws. -/
theorem t_characterization (key : String) :
    t key = (match ownLookup key with
      | some (JsValue.str s) => Except.ok (TResult.str s)
      | some (JsValue.fn tag) => Except.ok (TResult.element tag)
      | none => Except.error ("Not translation found for " ++ key)) ∧
    t "toString" = Except.error "Not translation found for toString" ∧
    (getProp "toString").isSome = true ∧
    hasOwn "toString" = false ∧
    t "lang" = Except.ok (TResult.str "ja") ∧
    t "settableDesc" = Except.ok (TResult.element "settableDesc") ∧
    t "banner" = Except.ok (TResult.element "banner") := by
  refine ⟨?_, rfl, by decide, by decide, rfl, rfl, rfl⟩
  cases h : ownLookup key with
  | none =>
    by_cases hp : key ∈ objectProtoKeys <;>
      simp [t, getProp, hasOwn, h, hp]
  | some v =>
    cases v with
    | str s => simp [t, getProp, h]
    | fn tag => simp [t, getProp, hasOwn, h]

end Translations

namespace Sequencer

/-- Modelled from the spec: the page tree the external generator hands the
Sequencer — a single-rooted tree whose nodes carry a route and an ordered
list of children.  The Sequencer's implementation is not among the
repository sources here (the templates only consume the `previousPage`
and `nextPage` values it derives), so tree and traversal follow the
spec's words. -/
inductive PageTree where
  | page (route : String) (children : List PageTree)

mutual

/-- Modelled from the spec: pre-order depth-first traversal — visit the
node, then each child in listed order. -/
def flattenTree : PageTree → List String
  | PageTree.page r cs => r :: flattenForest cs

def flattenForest : List PageTree → List String
  | [] => []
  | t :: ts => flattenTree t ++ flattenForest ts

end

mutual

/-- How often a route occurs among the tree's pages. -/
def countRoute (r : String) : PageTree → Nat
  | PageTree.page q cs => (if q = r then 1 else 0) + countForest r cs

def countForest (r : String) : List PageTree → Nat
  | [] => 0
  | t :: ts => countRoute r t + countForest r ts

end

/-- Modelled from the spec: previous = position `i - 1` when it exists. -/
def previousAt (seq : List String) (i : Nat) : Option String :=
  if i = 0 then none else seq[i - 1]?

/-- Modelled from the spec: next = position `i + 1` when it exists. -/
def nextAt (seq : List String) (i : Nat) : Option String :=
  seq[i + 1]?

mutual

theorem count_flattenTree (r : String) (t : PageTree) :
    (flattenTree t).count r = countRoute r t := by
  cases t with
  | page q cs =>
    by_cases hq : q = r
    · subst hq
      simp [flattenTree, List.count_cons, count_flattenForest q cs, countRoute,
        Nat.add_comm]
    · have hbeq : (r == q) = false := beq_eq_false_iff_ne.mpr (Ne.symm hq)
      simp [flattenTree, List.count_cons, count_flattenForest r cs, countRoute,
        hq, hbeq]

theorem count_flattenForest (r : String) (ts : List PageTree) :
    (flattenForest ts).count r = countForest r ts := by
  cases ts with
  | nil => simp [flattenForest, countForest]
  | cons t ts' =>
    simp [flattenForest, countForest, List.count_append,
      count_flattenTree r t, count_flattenForest r ts']

end

theorem flattenTree_ne_nil (t : PageTree) : flattenTree t ≠ [] := by
  cases t with
  | page r cs => simp [flattenTree]

/-- The spec's scenario tree `root → [A, B → [B1, B2]]`. -/
def demoTree : PageTree :=
  PageTree.page "root"
    [PageTree.page "A" [],
     PageTree.page "B" [PageTree.page "B1" [], PageTree.page "B2" []]]

theorem flattenTree_demoTree :
    flattenTree demoTree = ["root", "A", "B", "B1", "B2"] := by
  simp [demoTree, flattenTree, flattenForest]

/-- C9: the pre-order traversal of any tree lists exactly the tree's pages
(each route as often as the tree holds it, hence a permutation with no
omission or duplication when routes are unique), the sequence is
non-empty, its first page has no previous and its last no next; on the
spec's scenario tree the order is `root, A, B, B1, B2` with
previous(B1) = B and next(B1) = B2. -/
theorem sequencer_preorder_permutation (t : PageTree) (r : String)
    (huniq : ∀ q, countRoute q t ≤ 1) :
    (flattenTree t).count r = countRoute r t ∧
    (flattenTree t).Nodup ∧
    flattenTree t ≠ [] ∧
    previousAt (flattenTree t) 0 = none ∧
    nextAt (flattenTree t) ((flattenTree t).length - 1) = none ∧
    flattenTree demoTree = ["root", "A", "B", "B1", "B2"] ∧
    (flattenTree demoTree).indexOf "B1" = 3 ∧
    previousAt (flattenTree demoTree) 3 = some "B" ∧
    nextAt (flattenTree demoTree) 3 = some "B2" := by
  refine ⟨count_flattenTree r t, ?_, flattenTree_ne_nil t, ?_, ?_, flattenTree_demoTree,
    ?_, ?_, ?_⟩
  · exact List.nodup_iff_count_le_one.mpr
      (fun a => (count_flattenTree a t) ▸ huniq a)
  · simp [previousAt]
  · apply List.getElem?_eq_none
    have := List.length_pos.mpr (flattenTree_ne_nil t)
    omega
  · rw [flattenTree_demoTree]
    decide
  · rw [flattenTree_demoTree]
    rfl
  · rw [flattenTree_demoTree]
    rfl

theorem countRoute_demoTree_le_one (q : String) : countRoute q demoTree ≤ 1 := by
  rw [← count_flattenTree q demoTree, flattenTree_demoTree]
  exact List.nodup_iff_count_le_one.mp (by decide) q

/-- Witness for C9 at the scenario tree and route `B1`. -/
theorem sequencer_preorder_permutation_witness :
    (flattenTree demoTree).count "B1" = countRoute "B1" demoTree ∧
    (flattenTree demoTree).Nodup ∧
    flattenTree demoTree ≠ [] ∧
    previousAt (flattenTree demoTree) 0 = none ∧
    nextAt (flattenTree demoTree) ((flattenTree demoTree).length - 1) = none ∧
    flattenTree demoTree = ["root", "A", "B", "B1", "B2"] ∧
    (flattenTree demoTree).indexOf "B1" = 3 ∧
    previousAt (flattenTree demoTree) 3 = some "B" ∧
    nextAt (flattenTree demoTree) 3 = some "B2" :=
  sequencer_preorder_permutation demoTree "B1" countRoute_demoTree_le_one

end Sequencer
